import Mathlib

/-!
# Verification of the media-organizer pipeline

A shallow embedding of the core of the `golang-image-organizer` program
(spatial grid clustering, worker pool, filename timestamp parsing,
metadata extraction and duplicate-avoiding file organization), together
with proofs and refutations of the specification's claims about it.

Machine floating-point coordinates (`float64`) are modelled as exact
rationals (`ℚ`); Go `time.Time` values are modelled as instants, i.e.
seconds since the Unix epoch (`ℤ`).
-/

set_option autoImplicit false

namespace ImageOrganizer

/-! ## Fixed-precision decimal formatting (`fmt.Sprintf "%.Nf"`)

Go's `%.6f` / `%.4f` verbs print a float with a fixed number of decimals,
rounding the magnitude and prepending `-` for negative values.  Over `ℚ`
we model this with `round` on the scaled magnitude. -/

/-- Zero-pad the decimal rendering of `n` on the left to `w` digits. -/
def padLeftZeros (w : Nat) (n : Nat) : String :=
  let s := toString n
  String.mk (List.replicate (w - s.length) '0') ++ s

/-- `fmt.Sprintf "%.precf" q` modelled over `ℚ`: sign of the value,
integer part and `prec` rounded fractional digits. -/
def fmtFixed (prec : Nat) (q : ℚ) : String :=
  let scale : ℚ := (10 ^ prec : ℕ)
  let n : ℕ := (round (|q| * scale)).toNat
  (if q < 0 then "-" else "") ++
    toString (n / 10 ^ prec) ++ "." ++ padLeftZeros prec (n % 10 ^ prec)

/-! ## Data model -/

/-- `ImageInfo` from the source: per-file metadata record.  `Date` is the
capture instant in seconds since the Unix epoch; coordinates are exact
rationals standing for the source's `float64`s. -/
structure ImageInfo where
  OriginalPath : String
  Date : Int
  Location : String
  HasGPS : Bool
  Latitude : ℚ
  Longitude : ℚ
  deriving Repr, DecidableEq

/-- `GridCell` from the source: one cluster bucket of the spatial grid. -/
structure GridCell where
  CenterLat : ℚ
  CenterLng : ℚ
  Images : List String
  Count : Nat
  deriving Repr, DecidableEq

/-- `SpatialGrid` from the source.  The Go `map[string]*GridCell` is
modelled as an association list keyed by the grid-key string. -/
structure SpatialGrid where
  cells : List (String × GridCell)
  sensitivity : ℚ
  deriving Repr, DecidableEq

/-- Lookup in the cell map (Go `sg.cells[key]`). -/
def cellsGet : List (String × GridCell) → String → Option GridCell
  | [], _ => none
  | (k, c) :: rest, key => if k = key then some c else cellsGet rest key

/-- Store into the cell map (Go `sg.cells[key] = cell`): replace the
binding if the key is present, append a fresh binding otherwise. -/
def cellsPut : List (String × GridCell) → String → GridCell → List (String × GridCell)
  | [], key, c => [(key, c)]
  | (k, c0) :: rest, key, c =>
    if k = key then (key, c) :: rest else (k, c0) :: cellsPut rest key c

/-- `NewSpatialGrid` from the source. -/
def NewSpatialGrid (sensitivity : ℚ) : SpatialGrid :=
  { cells := [], sensitivity := sensitivity }

/-- `SpatialGrid.GetGridKey` from the source:
`gridLat = math.Floor(lat/sensitivity) * sensitivity` (same for `lng`),
rendered as `fmt.Sprintf("%.6f,%.6f", gridLat, gridLng)`. -/
def GetGridKey (sensitivity lat lng : ℚ) : String :=
  let gridLat : ℚ := (⌊lat / sensitivity⌋ : ℤ) * sensitivity
  let gridLng : ℚ := (⌊lng / sensitivity⌋ : ℤ) * sensitivity
  fmtFixed 6 gridLat ++ "," ++ fmtFixed 6 gridLng

/-- The reserved key of the no-GPS cluster (`noLocationKey` in the source). -/
def noLocationKey : String := "no-location"

/-- `SpatialGrid.addToNoLocationCluster` from the source. -/
def addToNoLocationCluster (sg : SpatialGrid) (imagePath : String) : SpatialGrid :=
  match cellsGet sg.cells noLocationKey with
  | some cell =>
    let cell' := { cell with Images := cell.Images ++ [imagePath], Count := cell.Count + 1 }
    { sg with cells := cellsPut sg.cells noLocationKey cell' }
  | none =>
    let cell' : GridCell := { CenterLat := 0, CenterLng := 0, Images := [imagePath], Count := 1 }
    { sg with cells := cellsPut sg.cells noLocationKey cell' }

/-- `SpatialGrid.AddImage` from the source: route no-GPS records to the
reserved cell; otherwise bucket by grid key, appending to the member list
and updating the running centroid
`CenterLat = (CenterLat*(Count-1) + lat) / Count` after `Count++`. -/
def AddImage (sg : SpatialGrid) (info : ImageInfo) : SpatialGrid :=
  if !info.HasGPS then
    addToNoLocationCluster sg info.OriginalPath
  else
    let key := GetGridKey sg.sensitivity info.Latitude info.Longitude
    match cellsGet sg.cells key with
    | some cell =>
      let count' := cell.Count + 1
      let cell' := { cell with
        Images := cell.Images ++ [info.OriginalPath]
        Count := count'
        CenterLat := (cell.CenterLat * ((count' : ℚ) - 1) + info.Latitude) / (count' : ℚ)
        CenterLng := (cell.CenterLng * ((count' : ℚ) - 1) + info.Longitude) / (count' : ℚ) }
      { sg with cells := cellsPut sg.cells key cell' }
    | none =>
      let cell' : GridCell := { CenterLat := info.Latitude
                                CenterLng := info.Longitude
                                Images := [info.OriginalPath]
                                Count := 1 }
      { sg with cells := cellsPut sg.cells key cell' }

/-- Fold a batch of records into the grid (the `AddImage` loop of
`processAllImages`). -/
def addImages (sg : SpatialGrid) (l : List ImageInfo) : SpatialGrid :=
  l.foldl AddImage sg

/-- The key under which `AddImage` files a record: its grid key when it
has GPS, the reserved key otherwise. -/
def keyOf (sensitivity : ℚ) (info : ImageInfo) : String :=
  if info.HasGPS then GetGridKey sensitivity info.Latitude info.Longitude else noLocationKey

/-- Two paths land in the same cluster of the grid: some cell's member
list contains both. -/
def sameCluster (sg : SpatialGrid) (p q : String) : Prop :=
  ∃ k c, cellsGet sg.cells k = some c ∧ p ∈ c.Images ∧ q ∈ c.Images

/-! ## Map lemmas for the cell store -/

theorem cellsGet_cellsPut_self (m : List (String × GridCell)) (k : String) (c : GridCell) :
    cellsGet (cellsPut m k c) k = some c := by
  induction m with
  | nil => simp [cellsPut, cellsGet]
  | cons kc rest ih =>
    by_cases h : kc.1 = k <;> simp [cellsPut, cellsGet, h, ih]

theorem cellsGet_cellsPut_ne (m : List (String × GridCell)) (k k' : String) (c : GridCell)
    (h : k' ≠ k) : cellsGet (cellsPut m k c) k' = cellsGet m k' := by
  induction m with
  | nil => simp [cellsPut, cellsGet, Ne.symm h]
  | cons kc rest ih =>
    by_cases hk : kc.1 = k <;> by_cases hk' : kc.1 = k' <;>
      simp_all [cellsPut, cellsGet, Ne.symm h]

/-! ## Step lemmas for `AddImage` -/

theorem sensitivity_AddImage (sg : SpatialGrid) (info : ImageInfo) :
    (AddImage sg info).sensitivity = sg.sensitivity := by
  by_cases h : info.HasGPS
  · rcases hc : cellsGet sg.cells (GetGridKey sg.sensitivity info.Latitude info.Longitude)
      with _ | cell <;> simp [AddImage, h, hc]
  · rcases hc : cellsGet sg.cells noLocationKey with _ | cell <;>
      simp [AddImage, addToNoLocationCluster, h, hc]

theorem sensitivity_addImages (sg : SpatialGrid) (l : List ImageInfo) :
    (addImages sg l).sensitivity = sg.sensitivity := by
  induction l generalizing sg with
  | nil => rfl
  | cons r l ih => rw [addImages, List.foldl_cons, ← addImages, ih, sensitivity_AddImage]

/-- Membership in a cell is never lost by a later insertion. -/
theorem AddImage_preserves_mem (sg : SpatialGrid) (info : ImageInfo) (k : String)
    (c : GridCell) (p : String) (hg : cellsGet sg.cells k = some c) (hp : p ∈ c.Images) :
    ∃ c', cellsGet (AddImage sg info).cells k = some c' ∧ p ∈ c'.Images := by
  unfold AddImage addToNoLocationCluster
  by_cases hgps : info.HasGPS
  · simp only [hgps, Bool.not_true, Bool.false_eq_true, if_false]
    set key := GetGridKey sg.sensitivity info.Latitude info.Longitude with hkey
    rcases hcell : cellsGet sg.cells key with _ | cell
    · simp only [hcell]
      by_cases hk : k = key
      · rw [hk, hcell] at hg; cases hg
      · exact ⟨c, by rw [cellsGet_cellsPut_ne _ _ _ _ hk]; exact hg, hp⟩
    · simp only [hcell]
      by_cases hk : k = key
      · subst hk
        rw [hg] at hcell; cases hcell
        exact ⟨_, cellsGet_cellsPut_self _ _ _, by simp [hp]⟩
      · exact ⟨c, by rw [cellsGet_cellsPut_ne _ _ _ _ hk]; exact hg, hp⟩
  · simp only [hgps, Bool.not_false, if_true]
    rcases hcell : cellsGet sg.cells noLocationKey with _ | cell
    · simp only [hcell]
      by_cases hk : k = noLocationKey
      · rw [hk, hcell] at hg; cases hg
      · exact ⟨c, by rw [cellsGet_cellsPut_ne _ _ _ _ hk]; exact hg, hp⟩
    · simp only [hcell]
      by_cases hk : k = noLocationKey
      · subst hk
        rw [hg] at hcell; cases hcell
        exact ⟨_, cellsGet_cellsPut_self _ _ _, by simp [hp]⟩
      · exact ⟨c, by rw [cellsGet_cellsPut_ne _ _ _ _ hk]; exact hg, hp⟩

/-- The inserted record's path lands in the cell keyed by its key. -/
theorem AddImage_mem_self (sg : SpatialGrid) (info : ImageInfo) :
    ∃ c', cellsGet (AddImage sg info).cells (keyOf sg.sensitivity info) = some c' ∧
      info.OriginalPath ∈ c'.Images := by
  unfold AddImage addToNoLocationCluster keyOf
  by_cases hgps : info.HasGPS
  · simp only [hgps, Bool.not_true, Bool.false_eq_true, if_false, if_true]
    rcases hcell : cellsGet sg.cells (GetGridKey sg.sensitivity info.Latitude info.Longitude)
      with _ | cell <;>
      simp only [hcell] <;> exact ⟨_, cellsGet_cellsPut_self _ _ _, by simp⟩
  · simp only [hgps, Bool.not_false, if_true, Bool.false_eq_true, if_false]
    rcases hcell : cellsGet sg.cells noLocationKey with _ | cell <;>
      simp only [hcell] <;> exact ⟨_, cellsGet_cellsPut_self _ _ _, by simp⟩

/-- A path found in a cell after one insertion was either already there,
or is the inserted record's path under the inserted record's key. -/
theorem AddImage_mem_inv (sg : SpatialGrid) (info : ImageInfo) (k : String)
    (c : GridCell) (p : String)
    (hg : cellsGet (AddImage sg info).cells k = some c) (hp : p ∈ c.Images) :
    (∃ c0, cellsGet sg.cells k = some c0 ∧ p ∈ c0.Images) ∨
      (p = info.OriginalPath ∧ k = keyOf sg.sensitivity info) := by
  unfold AddImage addToNoLocationCluster at hg
  by_cases hgps : info.HasGPS
  · simp only [hgps, Bool.not_true, Bool.false_eq_true, if_false] at hg
    set key := GetGridKey sg.sensitivity info.Latitude info.Longitude with hkey
    by_cases hk : k = key
    · subst hk
      rcases hcell : cellsGet sg.cells key with _ | cell
      · simp only [hcell] at hg
        rw [cellsGet_cellsPut_self] at hg
        injection hg with hg
        subst hg
        simp only [List.mem_singleton] at hp
        exact .inr ⟨hp, by simp [keyOf, hgps]⟩
      · simp only [hcell] at hg
        rw [cellsGet_cellsPut_self] at hg
        injection hg with hg
        subst hg
        simp only [List.mem_append, List.mem_singleton] at hp
        rcases hp with hp | hp
        · exact .inl ⟨cell, rfl, hp⟩
        · exact .inr ⟨hp, by simp [keyOf, hgps]⟩
    · rcases hcell : cellsGet sg.cells key with _ | cell <;>
        simp only [hcell] at hg <;>
        rw [cellsGet_cellsPut_ne _ _ _ _ hk] at hg <;>
        exact .inl ⟨c, hg, hp⟩
  · simp only [hgps, Bool.not_false, if_true] at hg
    by_cases hk : k = noLocationKey
    · subst hk
      rcases hcell : cellsGet sg.cells noLocationKey with _ | cell
      · simp only [hcell] at hg
        rw [cellsGet_cellsPut_self] at hg
        injection hg with hg
        subst hg
        simp only [List.mem_singleton] at hp
        exact .inr ⟨hp, by simp [keyOf, hgps]⟩
      · simp only [hcell] at hg
        rw [cellsGet_cellsPut_self] at hg
        injection hg with hg
        subst hg
        simp only [List.mem_append, List.mem_singleton] at hp
        rcases hp with hp | hp
        · exact .inl ⟨cell, rfl, hp⟩
        · exact .inr ⟨hp, by simp [keyOf, hgps]⟩
    · rcases hcell : cellsGet sg.cells noLocationKey with _ | cell <;>
        simp only [hcell] at hg <;>
        rw [cellsGet_cellsPut_ne _ _ _ _ hk] at hg <;>
        exact .inl ⟨c, hg, hp⟩

/-! ## Fold lemmas for `addImages` -/

theorem addImages_preserves_mem (l : List ImageInfo) (sg : SpatialGrid) (k : String)
    (c : GridCell) (p : String) (hg : cellsGet sg.cells k = some c) (hp : p ∈ c.Images) :
    ∃ c', cellsGet (addImages sg l).cells k = some c' ∧ p ∈ c'.Images := by
  induction l generalizing sg c with
  | nil => exact ⟨c, hg, hp⟩
  | cons r l ih =>
    obtain ⟨c', hg', hp'⟩ := AddImage_preserves_mem sg r k c p hg hp
    rw [addImages, List.foldl_cons, ← addImages]
    exact ih (AddImage sg r) c' hg' hp'

theorem addImages_mem_self (l : List ImageInfo) (sg : SpatialGrid) (r : ImageInfo)
    (hr : r ∈ l) :
    ∃ c, cellsGet (addImages sg l).cells (keyOf sg.sensitivity r) = some c ∧
      r.OriginalPath ∈ c.Images := by
  induction l generalizing sg with
  | nil => cases hr
  | cons s l ih =>
    rw [addImages, List.foldl_cons, ← addImages]
    rcases List.mem_cons.mp hr with hr | hr
    · subst hr
      obtain ⟨c, hg, hp⟩ := AddImage_mem_self sg r
      exact addImages_preserves_mem l (AddImage sg r) _ c r.OriginalPath hg hp
    · have := ih (AddImage sg s) hr
      rwa [sensitivity_AddImage] at this

theorem addImages_mem_inv (l : List ImageInfo) (sg : SpatialGrid) (k : String)
    (c : GridCell) (p : String)
    (hg : cellsGet (addImages sg l).cells k = some c) (hp : p ∈ c.Images) :
    (∃ c0, cellsGet sg.cells k = some c0 ∧ p ∈ c0.Images) ∨
      (∃ r ∈ l, r.OriginalPath = p ∧ keyOf sg.sensitivity r = k) := by
  induction l generalizing sg c with
  | nil => exact .inl ⟨c, hg, hp⟩
  | cons r l ih =>
    rw [addImages, List.foldl_cons, ← addImages] at hg
    rcases ih (AddImage sg r) c hg hp with h | ⟨s, hs, hsp, hsk⟩
    · obtain ⟨c0, hg0, hp0⟩ := h
      rcases AddImage_mem_inv sg r k c0 p hg0 hp0 with h | ⟨hpp, hkk⟩
      · exact .inl h
      · exact .inr ⟨r, List.mem_cons_self r l, hpp.symm, hkk.symm⟩
    · rw [sensitivity_AddImage] at hsk
      exact .inr ⟨s, List.mem_cons_of_mem r hs, hsp, hsk⟩

/-- Inserting a GPS record whose key already has a cell: the cell is
extended by the source's incremental-centroid update. -/
theorem AddImage_hit (sg : SpatialGrid) (r : ImageInfo) (c : GridCell)
    (hgps : r.HasGPS = true)
    (hg : cellsGet sg.cells (GetGridKey sg.sensitivity r.Latitude r.Longitude) = some c) :
    cellsGet (AddImage sg r).cells (GetGridKey sg.sensitivity r.Latitude r.Longitude) =
      some { c with
        Images := c.Images ++ [r.OriginalPath]
        Count := c.Count + 1
        CenterLat := (c.CenterLat * (((c.Count + 1 : ℕ) : ℚ) - 1) + r.Latitude) /
          ((c.Count + 1 : ℕ) : ℚ)
        CenterLng := (c.CenterLng * (((c.Count + 1 : ℕ) : ℚ) - 1) + r.Longitude) /
          ((c.Count + 1 : ℕ) : ℚ) } := by
  unfold AddImage
  simp only [hgps, Bool.not_true, Bool.false_eq_true, if_false, hg]
  exact cellsGet_cellsPut_self _ _ _

/--
**C1.** Records inserted into the spatial grid (in any order, among any
other insertions) end up in the same cluster iff `GetGridKey` maps their
coordinates to the same key string.  Paths are assumed pairwise distinct,
as produced by the directory walk.
-/
theorem clustered_iff_same_grid_key (sens : ℚ) (l : List ImageInfo) (r1 r2 : ImageInfo)
    (h1 : r1 ∈ l) (h2 : r2 ∈ l) (hg1 : r1.HasGPS = true) (hg2 : r2.HasGPS = true)
    (hnd : (l.map ImageInfo.OriginalPath).Nodup) :
    sameCluster (addImages (NewSpatialGrid sens) l) r1.OriginalPath r2.OriginalPath ↔
      GetGridKey sens r1.Latitude r1.Longitude = GetGridKey sens r2.Latitude r2.Longitude := by
  constructor
  · rintro ⟨k, c, hget, hp1, hp2⟩
    have inj := List.inj_on_of_nodup_map hnd
    have e1 := addImages_mem_inv l (NewSpatialGrid sens) k c _ hget hp1
    have e2 := addImages_mem_inv l (NewSpatialGrid sens) k c _ hget hp2
    rcases e1 with ⟨c0, hc0, -⟩ | ⟨s1, hs1, hp1', hk1⟩
    · simp [NewSpatialGrid, cellsGet] at hc0
    rcases e2 with ⟨c0, hc0, -⟩ | ⟨s2, hs2, hp2', hk2⟩
    · simp [NewSpatialGrid, cellsGet] at hc0
    have hs1r : s1 = r1 := inj hs1 h1 hp1'
    have hs2r : s2 = r2 := inj hs2 h2 hp2'
    subst hs1r; subst hs2r
    have hkk : keyOf (NewSpatialGrid sens).sensitivity s1 =
        keyOf (NewSpatialGrid sens).sensitivity s2 := by rw [hk1, hk2]
    simpa [keyOf, hg1, hg2, NewSpatialGrid] using hkk
  · intro hkey
    obtain ⟨c1, hgc1, hm1⟩ := addImages_mem_self l (NewSpatialGrid sens) r1 h1
    obtain ⟨c2, hgc2, hm2⟩ := addImages_mem_self l (NewSpatialGrid sens) r2 h2
    have hk12 : keyOf (NewSpatialGrid sens).sensitivity r1 =
        keyOf (NewSpatialGrid sens).sensitivity r2 := by
      simp [keyOf, hg1, hg2, NewSpatialGrid, hkey]
    rw [hk12, hgc2] at hgc1
    injection hgc1 with hc
    subst hc
    exact ⟨_, _, hgc2, hm1, hm2⟩

/-- A concrete GPS record used to instantiate the grid theorems. -/
def infoA : ImageInfo :=
  { OriginalPath := "a.jpg", Date := 0, Location := "Unknown"
    HasGPS := true, Latitude := 1/2, Longitude := 1/2 }

/-- A second concrete GPS record with the same coordinates as `infoA`. -/
def infoB : ImageInfo :=
  { OriginalPath := "b.jpg", Date := 0, Location := "Unknown"
    HasGPS := true, Latitude := 1/2, Longitude := 1/2 }

/-- Witness for C1 at a concrete two-record insertion. -/
theorem clustered_iff_same_grid_key_witness :
    (infoA ∈ [infoA, infoB] ∧ infoB ∈ [infoA, infoB] ∧ infoA.HasGPS = true ∧
      infoB.HasGPS = true ∧ (([infoA, infoB]).map ImageInfo.OriginalPath).Nodup) ∧
    (sameCluster (addImages (NewSpatialGrid 1) [infoA, infoB])
        infoA.OriginalPath infoB.OriginalPath ↔
      GetGridKey 1 infoA.Latitude infoA.Longitude =
        GetGridKey 1 infoB.Latitude infoB.Longitude) :=
  ⟨⟨by simp, by simp, rfl, rfl, by simp [infoA, infoB]⟩,
    clustered_iff_same_grid_key 1 [infoA, infoB] infoA infoB
      (by simp) (by simp) rfl rfl (by simp [infoA, infoB])⟩

/-- Folding records that all land in the cell at key `K` onto a grid that
already holds that cell extends its count and running means. -/
theorem addImages_centroid_aux (K : String) (l : List ImageInfo) :
    ∀ (sg : SpatialGrid) (c : GridCell) (SL SG : ℚ),
      (∀ r ∈ l, r.HasGPS = true ∧ GetGridKey sg.sensitivity r.Latitude r.Longitude = K) →
      cellsGet sg.cells K = some c → c.Count ≠ 0 →
      c.CenterLat = SL / (c.Count : ℚ) → c.CenterLng = SG / (c.Count : ℚ) →
      ∃ c', cellsGet (addImages sg l).cells K = some c' ∧
        c'.Count = c.Count + l.length ∧
        c'.CenterLat = (SL + (l.map ImageInfo.Latitude).sum) / (c'.Count : ℚ) ∧
        c'.CenterLng = (SG + (l.map ImageInfo.Longitude).sum) / (c'.Count : ℚ) := by
  induction l with
  | nil =>
    intro sg c SL SG hall hg hn hlat hlng
    exact ⟨c, hg, by simp, by simpa using hlat, by simpa using hlng⟩
  | cons r l ih =>
    intro sg c SL SG hall hg hn hlat hlng
    obtain ⟨hgps, hkey⟩ := hall r (List.mem_cons_self r l)
    rw [addImages, List.foldl_cons, ← addImages]
    have hc' := AddImage_hit sg r c hgps (by rw [hkey]; exact hg)
    rw [hkey] at hc'
    have hnQ : ((c.Count : ℚ)) ≠ 0 := Nat.cast_ne_zero.mpr hn
    have hcast : (((c.Count + 1 : ℕ) : ℚ)) - 1 = (c.Count : ℚ) := by push_cast; ring
    have hlat' : (c.CenterLat * (((c.Count + 1 : ℕ) : ℚ) - 1) + r.Latitude) /
        ((c.Count + 1 : ℕ) : ℚ) = (SL + r.Latitude) / ((c.Count + 1 : ℕ) : ℚ) := by
      rw [hcast, hlat, div_mul_cancel₀ SL hnQ]
    have hlng' : (c.CenterLng * (((c.Count + 1 : ℕ) : ℚ) - 1) + r.Longitude) /
        ((c.Count + 1 : ℕ) : ℚ) = (SG + r.Longitude) / ((c.Count + 1 : ℕ) : ℚ) := by
      rw [hcast, hlng, div_mul_cancel₀ SG hnQ]
    have hall' : ∀ s ∈ l, s.HasGPS = true ∧
        GetGridKey (AddImage sg r).sensitivity s.Latitude s.Longitude = K := by
      intro s hs
      rw [sensitivity_AddImage]
      exact hall s (List.mem_cons_of_mem r hs)
    obtain ⟨c', hg', hcount', hlat'', hlng''⟩ :=
      ih (AddImage sg r) _ (SL + r.Latitude) (SG + r.Longitude) hall' hc'
        (by simp) (by simpa using hlat') (by simpa using hlng')
    refine ⟨c', hg', ?_, ?_, ?_⟩
    · simp only [List.length_cons]
      simp only [] at hcount'
      omega
    · rw [hlat'']
      simp only [List.map_cons, List.sum_cons]
      ring_nf
    · rw [hlng'']
      simp only [List.map_cons, List.sum_cons]
      ring_nf

/--
**C2.** After inserting a non-empty list of GPS records that all land in
the grid cell at key `K` (in any order — the statement quantifies over
every such list), the cell's `CenterLat`/`CenterLng` equal the exact
arithmetic means of the members' latitudes and longitudes.
-/
theorem cell_centroid_is_mean (sens : ℚ) (K : String) (l : List ImageInfo)
    (hne : l ≠ [])
    (hall : ∀ r ∈ l, r.HasGPS = true ∧ GetGridKey sens r.Latitude r.Longitude = K) :
    ∃ c, cellsGet (addImages (NewSpatialGrid sens) l).cells K = some c ∧
      c.Count = l.length ∧
      c.CenterLat = (l.map ImageInfo.Latitude).sum / (l.length : ℚ) ∧
      c.CenterLng = (l.map ImageInfo.Longitude).sum / (l.length : ℚ) := by
  match l, hne with
  | r :: l, _ =>
    obtain ⟨hgps, hkey⟩ := hall r (List.mem_cons_self r l)
    rw [addImages, List.foldl_cons, ← addImages]
    have hcreate : cellsGet (AddImage (NewSpatialGrid sens) r).cells K =
        some { CenterLat := r.Latitude, CenterLng := r.Longitude
               Images := [r.OriginalPath], Count := 1 } := by
      unfold AddImage
      simp [hgps, NewSpatialGrid, cellsGet, cellsPut, hkey]
    have hall' : ∀ s ∈ l, s.HasGPS = true ∧
        GetGridKey (AddImage (NewSpatialGrid sens) r).sensitivity s.Latitude s.Longitude = K := by
      intro s hs
      rw [sensitivity_AddImage]
      exact hall s (List.mem_cons_of_mem r hs)
    obtain ⟨c', hg', hcount', hlat', hlng'⟩ :=
      addImages_centroid_aux K l (AddImage (NewSpatialGrid sens) r) _
        r.Latitude r.Longitude hall' hcreate (by simp) (by simp) (by simp)
    simp only [] at hcount'
    have hlen : (c'.Count : ℚ) = ((r :: l).length : ℚ) := by
      rw [hcount']
      push_cast [List.length_cons]
      ring
    refine ⟨c', hg', ?_, ?_, ?_⟩
    · simp only [List.length_cons]
      omega
    · rw [hlat', hlen]
      simp only [List.map_cons, List.sum_cons]
    · rw [hlng', hlen]
      simp only [List.map_cons, List.sum_cons]

/-- Witness for C2 at a concrete two-record cell. -/
theorem cell_centroid_is_mean_witness :
    (([infoA, infoB] : List ImageInfo) ≠ [] ∧
      ∀ r ∈ [infoA, infoB], r.HasGPS = true ∧
        GetGridKey 1 r.Latitude r.Longitude = GetGridKey 1 infoA.Latitude infoA.Longitude) ∧
    (∃ c, cellsGet (addImages (NewSpatialGrid 1) [infoA, infoB]).cells
        (GetGridKey 1 infoA.Latitude infoA.Longitude) = some c ∧
      c.Count = ([infoA, infoB] : List ImageInfo).length ∧
      c.CenterLat = (([infoA, infoB] : List ImageInfo).map ImageInfo.Latitude).sum /
        (([infoA, infoB] : List ImageInfo).length : ℚ) ∧
      c.CenterLng = (([infoA, infoB] : List ImageInfo).map ImageInfo.Longitude).sum /
        (([infoA, infoB] : List ImageInfo).length : ℚ)) :=
  ⟨⟨by simp, by simp [infoA, infoB]⟩,
    cell_centroid_is_mean 1 (GetGridKey 1 infoA.Latitude infoA.Longitude)
      [infoA, infoB] (by simp) (by simp [infoA, infoB])⟩

/-! ## Worker pool

Channels are modelled by their queued contents plus a closed flag; the
`sync.WaitGroup` accounting (which only mediates blocking, not data) is
outside the state.  All pool methods are sequential state transformers,
matching the coordinator's usage. -/

/-- `ProcessingResult` from the source.  The Go `*ImageInfo` pointer is
`Option ImageInfo` (`none` = `nil`); `error` likewise. -/
structure ProcessingResult where
  Info : Option ImageInfo
  Error : Option String
  deriving Repr, DecidableEq

/-- `WorkerPool` from the source. -/
structure WorkerPool where
  WorkerCount : Nat
  Jobs : List String
  JobsClosed : Bool
  Results : List ProcessingResult
  ResultsClosed : Bool
  closed : Bool
  deriving Repr, DecidableEq

/-- `NewWorkerPool` from the source (the buffer capacity only affects
blocking, which is not part of the data state). -/
def NewWorkerPool (workerCount bufferSize : Nat) : WorkerPool :=
  { WorkerCount := workerCount + 0 * bufferSize, Jobs := [], JobsClosed := false
    Results := [], ResultsClosed := false, closed := false }

/-- `WorkerPool.Submit` from the source:
`if !wp.closed { wp.Jobs <- filePath }`.  The channel send is an enqueue;
under the guard no send on a closed channel ever occurs. -/
def Submit (wp : WorkerPool) (filePath : String) : WorkerPool :=
  if !wp.closed then { wp with Jobs := wp.Jobs ++ [filePath] } else wp

/-- `WorkerPool.Close` from the source:
`if !wp.closed { wp.closed = true; close(wp.Jobs) }`. -/
def Close (wp : WorkerPool) : WorkerPool :=
  if !wp.closed then { wp with closed := true, JobsClosed := true } else wp

/-- `WorkerPool.Wait` from the source: after `wp.wg.Wait()` returns,
`if !wp.closed { close(wp.Results) }`.  The blocking of `wg.Wait()` is a
scheduling matter outside the state model; this captures which channels
are closed once `Wait` returns. -/
def Wait (wp : WorkerPool) : WorkerPool :=
  if !wp.closed then { wp with ResultsClosed := true } else wp

/--
**C9.** Once `Close()` has run, every subsequent `Submit` call is a
no-op: the pool state (in particular the `Jobs` queue) is unchanged, and
the guarded send cannot panic on the closed channel.
-/
theorem Submit_after_Close_noop (wp : WorkerPool) (filePath : String) :
    Submit (Close wp) filePath = Close wp := by
  by_cases h : wp.closed <;> simp [Submit, Close, h]

/--
**C3 (refuted: code bug).** The spec says `Wait()` closes the `Results`
channel exactly once after the pool is closed.  In the source the close
is guarded by `if !wp.closed`, and `Close()` sets `wp.closed`, so on a
pool that went through `Close()` a subsequent `Wait()` never closes
`Results`: from a fresh pool, `ResultsClosed` is still `false`.
-/
theorem Wait_after_Close_never_closes_Results :
    (Close (NewWorkerPool 4 100)).closed = true ∧
    (Wait (Close (NewWorkerPool 4 100))).ResultsClosed = false := by
  constructor <;> rfl

/-! ## Filename timestamp parsing (`extractDateFromFilename`)

Go regexps over the basename are embedded as leftmost-match scanners for
the source's seven fixed-width patterns; `time.Parse` is embedded as
digit parsing plus Go's calendar validation (month 1–12, day valid for
the month and leap year, hour < 24, minute/second < 60), producing the
parsed instant in epoch seconds (Go parses these layouts in UTC). -/

/-- Go `filepath.Ext`: the suffix starting at the final dot of the final
path element, `""` when that element has no dot. -/
def goExt (name : String) : String :=
  let revElem := name.data.reverse.takeWhile (fun c => c ≠ '/')
  let tl := revElem.takeWhile (fun c => c ≠ '.')
  if tl.length = revElem.length then "" else String.mk ('.' :: tl.reverse)

/-- `strings.TrimSuffix(filename, filepath.Ext(filename))`: the basename
characters with the extension removed. -/
def trimExt (name : String) : List Char :=
  let rev := name.data.reverse
  let tl := rev.takeWhile (fun c => c ≠ '.')
  if tl.length = rev.length then name.data else (rev.drop (tl.length + 1)).reverse

/-- Go `filepath.Base` on a rooted file path: the part after the last
path separator. -/
def goBase (path : String) : String :=
  String.mk ((path.data.reverse.takeWhile (fun c => c ≠ '/')).reverse)

/-- Go `strings.ToLower` (ASCII suffices for the extension table). -/
def goToLower (s : String) : String :=
  String.mk (s.data.map Char.toLower)

/-- Decimal value of a digit string (all callers pass checked digits). -/
def digitsToNat (ds : List Char) : Nat :=
  ds.foldl (fun a c => a * 10 + (c.toNat - 48)) 0

/-- Take exactly `n` decimal digits from the front (`\d{n}`). -/
def takeDigits : Nat → List Char → Option (List Char × List Char)
  | 0, l => some ([], l)
  | _ + 1, [] => none
  | n + 1, c :: rest =>
    if c.isDigit then
      match takeDigits n rest with
      | some (ds, l') => some (c :: ds, l')
      | none => none
    else none

/-- Strip an expected literal from the front. -/
def dropLit : List Char → List Char → Option (List Char)
  | [], l => some l
  | _ :: _, [] => none
  | p :: ps, c :: rest => if c = p then dropLit ps rest else none

/-- Leftmost-match search: try the anchored matcher at every position,
left to right (RE2 leftmost semantics for these fixed-width patterns). -/
def scanFirst {α : Type} (m : List Char → Option α) : List Char → Option α
  | [] => m []
  | c :: rest =>
    match m (c :: rest) with
    | some r => some r
    | none => scanFirst m rest

/-- Anchored `IMG_(\d{8})_(\d{6})`. -/
def matchIPhoneAt (l : List Char) : Option (List (List Char)) := do
  let l ← dropLit ['I', 'M', 'G', '_'] l
  let (d8, l) ← takeDigits 8 l
  let l ← dropLit ['_'] l
  let (d6, _) ← takeDigits 6 l
  pure [d8, d6]

/-- Anchored `(\d{8})_(\d{6})`. -/
def matchAndroidAt (l : List Char) : Option (List (List Char)) := do
  let (d8, l) ← takeDigits 8 l
  let l ← dropLit ['_'] l
  let (d6, _) ← takeDigits 6 l
  pure [d8, d6]

/-- Anchored `Screenshot_(\d{8})-(\d{6})`. -/
def matchScreenshotAt (l : List Char) : Option (List (List Char)) := do
  let l ← dropLit ['S', 'c', 'r', 'e', 'e', 'n', 's', 'h', 'o', 't', '_'] l
  let (d8, l) ← takeDigits 8 l
  let l ← dropLit ['-'] l
  let (d6, _) ← takeDigits 6 l
  pure [d8, d6]

/-- Anchored `(\d{4})-(\d{2})-(\d{2}) at (\d{2})\.(\d{2})\.(\d{2})`. -/
def matchWhatsAppAt (l : List Char) : Option (List (List Char)) := do
  let (y, l) ← takeDigits 4 l
  let l ← dropLit ['-'] l
  let (mo, l) ← takeDigits 2 l
  let l ← dropLit ['-'] l
  let (d, l) ← takeDigits 2 l
  let l ← dropLit [' ', 'a', 't', ' '] l
  let (h, l) ← takeDigits 2 l
  let l ← dropLit ['.'] l
  let (mi, l) ← takeDigits 2 l
  let l ← dropLit ['.'] l
  let (s, _) ← takeDigits 2 l
  pure [y, mo, d, h, mi, s]

/-- Anchored `(\d{8})`. -/
def matchGenericAt (l : List Char) : Option (List (List Char)) := do
  let (d8, _) ← takeDigits 8 l
  pure [d8]

/-- Anchored `(\d{4})-(\d{2})-(\d{2})T(\d{2})-(\d{2})-(\d{2})`. -/
def matchISOAt (l : List Char) : Option (List (List Char)) := do
  let (y, l) ← takeDigits 4 l
  let l ← dropLit ['-'] l
  let (mo, l) ← takeDigits 2 l
  let l ← dropLit ['-'] l
  let (d, l) ← takeDigits 2 l
  let l ← dropLit ['T'] l
  let (h, l) ← takeDigits 2 l
  let l ← dropLit ['-'] l
  let (mi, l) ← takeDigits 2 l
  let l ← dropLit ['-'] l
  let (s, _) ← takeDigits 2 l
  pure [y, mo, d, h, mi, s]

/-- `^(\d{10})$`: the whole basename is exactly ten digits. -/
def matchUnixFull (l : List Char) : Option (List (List Char)) := do
  let (d10, rest) ← takeDigits 10 l
  if rest.isEmpty then pure [d10] else none

/-- Go leap-year rule (`time` package proleptic Gregorian calendar). -/
def isLeapYear (y : Int) : Bool :=
  (y % 4 == 0 && y % 100 != 0) || y % 400 == 0

/-- Day count of month `m` of year `y` (0 for an out-of-range month). -/
def daysInMonth (y : Int) (m : Nat) : Nat :=
  match m with
  | 1 => 31
  | 2 => if isLeapYear y then 29 else 28
  | 3 => 31
  | 4 => 30
  | 5 => 31
  | 6 => 30
  | 7 => 31
  | 8 => 31
  | 9 => 30
  | 10 => 31
  | 11 => 30
  | 12 => 31
  | _ => 0

/-- Days from 1970-01-01 to year `y`, month `m`, day `d` (proleptic
Gregorian, standard civil-date day count). -/
def daysFromCivil (y : Int) (m d : Nat) : Int :=
  let y' : Int := if m ≤ 2 then y - 1 else y
  let era : Int := Int.fdiv y' 400
  let yoe : Int := y' - era * 400
  let mp : Int := (m : Int) + (if 2 < m then -3 else 9)
  let doy : Int := (153 * mp + 2) / 5 + (d : Int) - 1
  let doe : Int := yoe * 365 + yoe / 4 - yoe / 100 + doy
  era * 146097 + doe - 719468

/-- The instant (epoch seconds) of a UTC civil date-time. -/
def civilToEpoch (y : Int) (mo d h mi s : Nat) : Int :=
  daysFromCivil y mo d * 86400 + (h : Int) * 3600 + (mi : Int) * 60 + (s : Int)

/-- Go `time.Parse` range checks: month, day-in-month, hour, minute,
second. -/
def goDateTimeValid (y : Int) (mo d h mi s : Nat) : Bool :=
  1 ≤ mo && mo ≤ 12 && 1 ≤ d && d ≤ daysInMonth y mo && h < 24 && mi < 60 && s < 60

/-- `time.Parse` on the numeric fields: the instant when the fields are a
valid calendar date-time, `none` (a parse error) otherwise. -/
def goTimeParse (y : Int) (mo d h mi s : Nat) : Option Int :=
  if goDateTimeValid y mo d h mi s then some (civilToEpoch y mo d h mi s) else none

/-- Split an 8-digit `YYYYMMDD` capture into its fields. -/
def parseYMD8 (d8 : List Char) : Int × Nat × Nat :=
  ((digitsToNat (d8.take 4) : Int), digitsToNat ((d8.drop 4).take 2), digitsToNat (d8.drop 6))

/-- Layouts `20060102_150405` / `20060102-150405` (8-digit date group
plus 6-digit time group). -/
def parseCompact (caps : List (List Char)) : Option Int :=
  match caps with
  | [d8, d6] =>
    let (y, mo, d) := parseYMD8 d8
    goTimeParse y mo d (digitsToNat (d6.take 2)) (digitsToNat ((d6.drop 2).take 2))
      (digitsToNat (d6.drop 4))
  | _ => none

/-- Layouts `2006-01-02 at 15.04.05` / `2006-01-02T15-04-05` (six
separate captures). -/
def parseSixGroups (caps : List (List Char)) : Option Int :=
  match caps with
  | [y, mo, d, h, mi, s] =>
    goTimeParse (digitsToNat y) (digitsToNat mo) (digitsToNat d) (digitsToNat h)
      (digitsToNat mi) (digitsToNat s)
  | _ => none

/-- Layout `20060102` (date only, midnight). -/
def parseDateOnly (caps : List (List Char)) : Option Int :=
  match caps with
  | [d8] =>
    let (y, mo, d) := parseYMD8 d8
    goTimeParse y mo d 0 0 0
  | _ => none

/-- `strconv.ParseInt` + `time.Unix(ts, 0)`: the instant is the parsed
epoch value itself (always succeeds on ten digits). -/
def parseUnix (caps : List (List Char)) : Option Int :=
  match caps with
  | [d10] => some ((digitsToNat d10 : Int))
  | _ => none

/-- One entry of the source's `patterns` slice: the regexp (as a
leftmost-capture finder) and its layout (as a capture parser). -/
structure FilePattern where
  find : List Char → Option (List (List Char))
  fromCaps : List (List Char) → Option Int

/-- `IMG_(\d{8})_(\d{6})` / layout `20060102_150405`. -/
def iPhonePattern : FilePattern := ⟨scanFirst matchIPhoneAt, parseCompact⟩

/-- `(\d{8})_(\d{6})` / layout `20060102_150405`. -/
def androidPattern : FilePattern := ⟨scanFirst matchAndroidAt, parseCompact⟩

/-- `Screenshot_(\d{8})-(\d{6})` / layout `20060102-150405`. -/
def screenshotPattern : FilePattern := ⟨scanFirst matchScreenshotAt, parseCompact⟩

/-- `(\d{4})-(\d{2})-(\d{2}) at (\d{2})\.(\d{2})\.(\d{2})`. -/
def whatsAppPattern : FilePattern := ⟨scanFirst matchWhatsAppAt, parseSixGroups⟩

/-- `(\d{8})` / layout `20060102`. -/
def genericPattern : FilePattern := ⟨scanFirst matchGenericAt, parseDateOnly⟩

/-- `(\d{4})-(\d{2})-(\d{2})T(\d{2})-(\d{2})-(\d{2})`. -/
def isoPattern : FilePattern := ⟨scanFirst matchISOAt, parseSixGroups⟩

/-- `^(\d{10})$` / Unix epoch seconds. -/
def unixPattern : FilePattern := ⟨matchUnixFull, parseUnix⟩

/-- The source's `patterns` slice, in its literal order: iPhone, Android,
Screenshot, WhatsApp, generic 8-digit, ISO, Unix. -/
def filenamePatterns : List FilePattern :=
  [iPhonePattern, androidPattern, screenshotPattern, whatsAppPattern,
   genericPattern, isoPattern, unixPattern]

/-- The source's pattern loop: on a match whose substring parses, return;
on no match, or a match that fails calendar parsing, fall through to the
next pattern. -/
def tryPatterns : List FilePattern → List Char → Option Int
  | [], _ => none
  | p :: ps, s =>
    match p.find s with
    | some caps =>
      match p.fromCaps caps with
      | some t => some t
      | none => tryPatterns ps s
    | none => tryPatterns ps s

/-- One pattern's match-then-parse outcome. -/
def tryPattern (p : FilePattern) (l : List Char) : Option Int :=
  match p.find l with
  | some caps => p.fromCaps caps
  | none => none

/-- `extractDateFromFilename` from the source: trim the extension, then
run the ordered pattern list.  `none` models `found = false`. -/
def extractDateFromFilename (filename : String) : Option Int :=
  tryPatterns filenamePatterns (trimExt filename)

theorem tryPatterns_cons (p : FilePattern) (ps : List FilePattern) (s : List Char) :
    tryPatterns (p :: ps) s =
      match tryPattern p s with
      | some t => some t
      | none => tryPatterns ps s := by
  rcases h : p.find s with _ | caps
  · simp [tryPatterns, tryPattern, h]
  · rcases hc : p.fromCaps caps with _ | t <;> simp [tryPatterns, tryPattern, h, hc]

/--
**C5.** `extractDateFromFilename "1710508222.jpg"` returns the instant of
Unix epoch second 1710508222: the generic 8-digit pattern does match the
leftmost substring `"17105082"` first, but that substring fails calendar
parsing (month 50), and the parser falls through to the Unix-epoch
pattern.
-/
theorem unix_epoch_filename :
    extractDateFromFilename "1710508222.jpg" = some 1710508222 ∧
    genericPattern.find (trimExt "1710508222.jpg") =
      some [['1', '7', '1', '0', '5', '0', '8', '2']] ∧
    genericPattern.fromCaps [['1', '7', '1', '0', '5', '0', '8', '2']] = none := by
  refine ⟨by decide, by decide, by decide⟩

/--
**C4 (refuted).** The claim orders ISO before the generic 8-digit
pattern.  In the source the generic pattern comes first, and for
`"2024-03-15T14-30-22_20240315.jpg"` — matched by both — the generic
match `"20240315"` parses, so the result is midnight 2024-03-15, not the
14:30:22 instant the ISO pattern (which also matches) would produce.
-/
theorem generic_shadows_iso_counterexample :
    extractDateFromFilename "2024-03-15T14-30-22_20240315.jpg" =
      some (civilToEpoch 2024 3 15 0 0 0) ∧
    tryPattern isoPattern (trimExt "2024-03-15T14-30-22_20240315.jpg") =
      some (civilToEpoch 2024 3 15 14 30 22) ∧
    civilToEpoch 2024 3 15 0 0 0 ≠ civilToEpoch 2024 3 15 14 30 22 := by
  refine ⟨by decide, by decide, by decide⟩

/--
**C4 (amended).** The precedence order is iPhone, Android, Screenshot,
WhatsApp, generic 8-digit `YYYYMMDD`, ISO, 10-digit Unix epoch; the first
pattern that matches and whose matched substring parses wins.  In
particular, whenever the four patterns preceding the generic one fail and
the generic pattern's leftmost match parses as a valid date, the generic
pattern determines the result — even if the ISO pattern also matches.
-/
theorem generic_precedes_iso (s : String) (t : Int)
    (h1 : tryPattern iPhonePattern (trimExt s) = none)
    (h2 : tryPattern androidPattern (trimExt s) = none)
    (h3 : tryPattern screenshotPattern (trimExt s) = none)
    (h4 : tryPattern whatsAppPattern (trimExt s) = none)
    (h5 : tryPattern genericPattern (trimExt s) = some t) :
    extractDateFromFilename s = some t := by
  unfold extractDateFromFilename filenamePatterns
  rw [tryPatterns_cons, h1, tryPatterns_cons, h2, tryPatterns_cons, h3,
    tryPatterns_cons, h4, tryPatterns_cons, h5]

/-- Witness for amended C4 at the concrete doubly-matched filename. -/
theorem generic_precedes_iso_witness :
    (tryPattern iPhonePattern (trimExt "2024-03-15T14-30-22_20240315.jpg") = none ∧
      tryPattern androidPattern (trimExt "2024-03-15T14-30-22_20240315.jpg") = none ∧
      tryPattern screenshotPattern (trimExt "2024-03-15T14-30-22_20240315.jpg") = none ∧
      tryPattern whatsAppPattern (trimExt "2024-03-15T14-30-22_20240315.jpg") = none ∧
      tryPattern genericPattern (trimExt "2024-03-15T14-30-22_20240315.jpg") =
        some (civilToEpoch 2024 3 15 0 0 0)) ∧
    extractDateFromFilename "2024-03-15T14-30-22_20240315.jpg" =
      some (civilToEpoch 2024 3 15 0 0 0) :=
  ⟨⟨by decide, by decide, by decide, by decide, by decide⟩,
    generic_precedes_iso "2024-03-15T14-30-22_20240315.jpg" (civilToEpoch 2024 3 15 0 0 0)
      (by decide) (by decide) (by decide) (by decide) (by decide)⟩

/-! ## Metadata extraction (`extractImageInfo`)

The external collaborators — `os.Stat`, the in-process EXIF decoder and
the `exiftool` subprocess — are modelled by a per-file environment record
holding their observable outcomes; the function itself is translated from
the source's control flow. -/

/-- One line of `exiftool -GPS* -n` output, abstracted to its parsed
classification: a line containing `"GPS Latitude"` and a colon together
with its `strconv.ParseFloat` outcome (`none` on failure, e.g. a
`GPS Latitude Ref` line), likewise for longitude, or any other line. -/
inductive GPSLine where
  | latVal (v : Option ℚ)
  | lngVal (v : Option ℚ)
  | other
  deriving Repr, DecidableEq

/-- `extractHEICGPSWithExifTool` from the source: with no tool configured
(or a failed invocation) it returns `(0, 0, false)`; otherwise it scans
the output lines, keeping the last successfully parsed latitude and
longitude, and reports GPS only when both are non-zero. -/
def extractHEICGPSWithExifTool (toolOk : Bool) (lines : List GPSLine) : ℚ × ℚ × Bool :=
  if !toolOk then (0, 0, false)
  else
    let p := lines.foldl (fun (p : ℚ × ℚ) ln =>
      match ln with
      | .latVal (some v) => (v, p.2)
      | .lngVal (some v) => (p.1, v)
      | _ => p) (0, 0)
    if p.1 ≠ 0 ∧ p.2 ≠ 0 then (p.1, p.2, true) else (p.1, p.2, false)

/-- `formatLocation` from the source: `%.4f` magnitudes with N/S, E/W
direction letters. -/
def formatLocation (lat lng : ℚ) : String :=
  let latDir := if lat < 0 then "S" else "N"
  let latAbs := if lat < 0 then -lat else lat
  let lngDir := if lng < 0 then "W" else "E"
  let lngAbs := if lng < 0 then -lng else lng
  fmtFixed 4 latAbs ++ latDir ++ "_" ++ fmtFixed 4 lngAbs ++ lngDir

/-- The in-process EXIF decode (`exif.Decode`) result: `dateTime` and
`latLong` are the `DateTime()` / `LatLong()` query outcomes (`none` = the
query returned an error). -/
structure ExifData where
  dateTime : Option Int
  latLong : Option (ℚ × ℚ)
  deriving Repr, DecidableEq

/-- Everything `extractImageInfo` observes from the filesystem and the
external tool for one path. -/
structure FileEnv where
  openOk : Bool
  statOk : Bool
  modTime : Int
  exifData : Option ExifData
  toolOk : Bool
  toolGPSLines : List GPSLine
  videoDate : Option Int
  deriving Repr, DecidableEq

/-- The `videoFormats` table of `extractImageInfo`. -/
def videoFormats : List String :=
  [".mov", ".mp4", ".m4v", ".avi", ".mkv", ".wmv", ".flv", ".webm", ".3gp", ".mts", ".m2ts"]

/-- The initial population of the record in `extractImageInfo`: the
`time.Now()` default, overridden by the modification time when `os.Stat`
succeeds, overridden by a filename timestamp when one parses. -/
def baseInfo (imagePath : String) (env : FileEnv) (now : Int) : ImageInfo :=
  let info : ImageInfo :=
    { OriginalPath := imagePath
      Date := now
      Location := "Unknown"
      HasGPS := false
      Latitude := 0
      Longitude := 0 }
  let info := if env.statOk then { info with Date := env.modTime } else info
  match extractDateFromFilename (goBase imagePath) with
  | some t => { info with Date := t }
  | none => info

/-- The GPS block `extractImageInfo` repeats in its video and HEIC/HEIF
branches: adopt the tool fix when one was reported. -/
def withToolGPS (info : ImageInfo) (r : ℚ × ℚ × Bool) : ImageInfo :=
  if r.2.2 then
    { info with
        HasGPS := true
        Latitude := r.1
        Longitude := r.2.1
        Location := formatLocation r.1 r.2.1 }
  else info

/-- `extractImageInfo` from the source.  `none` models the `(nil, err)`
return on an `os.Open` failure; `now` is the `time.Now()` default date.
Logging is omitted. -/
def extractImageInfo (imagePath : String) (env : FileEnv) (now : Int) : Option ImageInfo :=
  if !env.openOk then none
  else
    let info := baseInfo imagePath env now
    let ext := goToLower (goExt imagePath)
    if videoFormats.contains ext then
      let info := withToolGPS info (extractHEICGPSWithExifTool env.toolOk env.toolGPSLines)
      let info :=
        match env.videoDate with
        | some d => { info with Date := d }
        | none => info
      some info
    else if ext = ".heic" ∨ ext = ".heif" then
      some (withToolGPS info (extractHEICGPSWithExifTool env.toolOk env.toolGPSLines))
    else
      match env.exifData with
      | none => some info
      | some ex =>
        let info :=
          match ex.dateTime with
          | some d => { info with Date := d }
          | none => info
        match ex.latLong with
        | some ll =>
          some { info with
                  HasGPS := true
                  Latitude := ll.1
                  Longitude := ll.2
                  Location := formatLocation ll.1 ll.2 }
        | none => some info

/-- The zero `time.Time` (January 1 of year 1, UTC) as an instant. -/
def goZeroTime : Int := civilToEpoch 1 1 1 0 0 0

/-- The body of `worker` from the source for one consumed job: start from
the minimal error-case result `{Info: &ImageInfo{OriginalPath: mediaFile}}`,
then overwrite `Info` on success or set `Error` on failure. -/
def worker (mediaFile : String) (env : FileEnv) (now : Int) : ProcessingResult :=
  let minimal : ImageInfo :=
    { OriginalPath := mediaFile
      Date := goZeroTime
      Location := ""
      HasGPS := false
      Latitude := 0
      Longitude := 0 }
  let result : ProcessingResult := { Info := some minimal, Error := none }
  match extractImageInfo mediaFile env now with
  | none => { result with Error := some "extract error" }
  | some info => { result with Info := some info }

theorem baseInfo_originalPath (imagePath : String) (env : FileEnv) (now : Int) :
    (baseInfo imagePath env now).OriginalPath = imagePath := by
  unfold baseInfo
  split <;> split <;> rfl

theorem baseInfo_noGPS (imagePath : String) (env : FileEnv) (now : Int) :
    (baseInfo imagePath env now).HasGPS = false ∧
      (baseInfo imagePath env now).Latitude = 0 ∧
      (baseInfo imagePath env now).Longitude = 0 := by
  unfold baseInfo
  split <;> split <;> exact ⟨rfl, rfl, rfl⟩

theorem withToolGPS_originalPath (info : ImageInfo) (r : ℚ × ℚ × Bool) :
    (withToolGPS info r).OriginalPath = info.OriginalPath := by
  unfold withToolGPS
  split <;> rfl

/-- A successful extraction carries the queried path unchanged. -/
theorem extractImageInfo_originalPath (imagePath : String) (env : FileEnv) (now : Int)
    (info : ImageInfo) (h : extractImageInfo imagePath env now = some info) :
    info.OriginalPath = imagePath := by
  unfold extractImageInfo at h
  by_cases ho : env.openOk
  · simp only [ho, Bool.not_true, Bool.false_eq_true, if_false] at h
    split at h
    · -- video branch
      split at h <;>
        (injection h with h; subst h;
         first
           | exact baseInfo_originalPath imagePath env now
           | exact (withToolGPS_originalPath _ _).trans (baseInfo_originalPath imagePath env now))
    · split at h
      · -- HEIC branch
        injection h with h; subst h
        exact (withToolGPS_originalPath _ _).trans (baseInfo_originalPath imagePath env now)
      · -- EXIF branch
        split at h
        · injection h with h; subst h
          exact baseInfo_originalPath imagePath env now
        · split at h <;> split at h <;>
            (injection h with h; subst h; simp [baseInfo_originalPath imagePath env now])
  · simp [ho] at h

/-- On the tool path, a reported GPS fix has non-zero coordinates. -/
theorem tool_gps_nonzero (toolOk : Bool) (lines : List GPSLine)
    (h : (extractHEICGPSWithExifTool toolOk lines).2.2 = true) :
    (extractHEICGPSWithExifTool toolOk lines).1 ≠ 0 ∧
      (extractHEICGPSWithExifTool toolOk lines).2.1 ≠ 0 := by
  unfold extractHEICGPSWithExifTool at h ⊢
  by_cases ht : toolOk
  · simp only [ht, Bool.not_true, Bool.false_eq_true, if_false] at h ⊢
    split at h
    · next hc => rw [if_pos hc]; exact hc
    · next => simp at h
  · simp [ht] at h

/--
**C10.** For every consumed job, the published `ProcessingResult` carries
a non-nil `Info` whose `OriginalPath` is the job's path — also when
extraction fails and `Error` is set — so the result consumer can always
log `result.Info.OriginalPath`.
-/
theorem worker_result_has_path (mediaFile : String) (env : FileEnv) (now : Int) :
    ∃ info, (worker mediaFile env now).Info = some info ∧
      info.OriginalPath = mediaFile := by
  unfold worker
  rcases h : extractImageInfo mediaFile env now with _ | info
  · exact ⟨_, rfl, rfl⟩
  · exact ⟨info, rfl, extractImageInfo_originalPath mediaFile env now info h⟩

/-- A per-file environment whose EXIF decode succeeds and yields the
`(0, 0)` coordinate pair. -/
def envZeroGPS : FileEnv :=
  { openOk := true, statOk := true, modTime := 5
    exifData := some { dateTime := none, latLong := some (0, 0) }
    toolOk := false, toolGPSLines := [], videoDate := none }

/--
**C6 (refuted).** The claim says `HasGPS` is set only when the metadata
source yields a non-zero pair.  In the EXIF branch the source sets
`HasGPS` whenever `LatLong()` succeeds, with no non-zero check: a decode
yielding `(0, 0)` produces `HasGPS = true` with zero coordinates.
-/
theorem hasGPS_zero_pair_counterexample :
    (extractImageInfo "photo.jpg" envZeroGPS 7).map
      (fun i => (i.HasGPS, i.Latitude, i.Longitude)) = some (true, 0, 0) := rfl

/-- When the GPS block of the video/HEIC branches leaves `HasGPS` set on
a record that started without GPS, the tool reported a fix and the
adopted coordinates are its values. -/
theorem withToolGPS_hasGPS (info : ImageInfo) (r : ℚ × ℚ × Bool)
    (hbase : info.HasGPS = false) (hg : (withToolGPS info r).HasGPS = true) :
    r.2.2 = true ∧ (withToolGPS info r).Latitude = r.1 ∧
      (withToolGPS info r).Longitude = r.2.1 := by
  rcases hr : r.2.2 with _ | _
  · simp only [withToolGPS, hr, Bool.false_eq_true, if_false] at hg
    rw [hbase] at hg
    cases hg
  · refine ⟨rfl, ?_, ?_⟩ <;> simp only [withToolGPS, hr, if_true]

/-- The video/HEIC branches set `HasGPS` only on a non-zero tool fix. -/
theorem toolBranch_gps (imagePath : String) (env : FileEnv) (now : Int)
    (hg : (withToolGPS (baseInfo imagePath env now)
      (extractHEICGPSWithExifTool env.toolOk env.toolGPSLines)).HasGPS = true) :
    (extractHEICGPSWithExifTool env.toolOk env.toolGPSLines).2.2 = true ∧
      (withToolGPS (baseInfo imagePath env now)
        (extractHEICGPSWithExifTool env.toolOk env.toolGPSLines)).Latitude ≠ 0 ∧
      (withToolGPS (baseInfo imagePath env now)
        (extractHEICGPSWithExifTool env.toolOk env.toolGPSLines)).Longitude ≠ 0 := by
  obtain ⟨hfix, hlat, hlng⟩ :=
    withToolGPS_hasGPS _ _ (baseInfo_noGPS imagePath env now).1 hg
  obtain ⟨hz1, hz2⟩ := tool_gps_nonzero env.toolOk env.toolGPSLines hfix
  exact ⟨hfix, by rw [hlat]; exact hz1, by rw [hlng]; exact hz2⟩

/--
**C6 (amended).** `HasGPS` is set to true only if either the external
tool query reported a fix — and then both coordinates are non-zero — or
the in-process EXIF decode succeeded and its `LatLong()` query yielded a
(possibly zero) pair, which the record carries verbatim.
-/
theorem hasGPS_source_amended (imagePath : String) (env : FileEnv) (now : Int)
    (info : ImageInfo) (h : extractImageInfo imagePath env now = some info)
    (hgps : info.HasGPS = true) :
    ((extractHEICGPSWithExifTool env.toolOk env.toolGPSLines).2.2 = true ∧
      info.Latitude ≠ 0 ∧ info.Longitude ≠ 0) ∨
    (∃ ex ll, env.exifData = some ex ∧ ex.latLong = some ll ∧
      info.Latitude = ll.1 ∧ info.Longitude = ll.2) := by
  unfold extractImageInfo at h
  by_cases ho : env.openOk
  · simp only [ho, Bool.not_true, Bool.false_eq_true, if_false] at h
    split at h
    · -- video branch
      split at h <;> injection h with h <;> subst h
      · exact .inl (toolBranch_gps imagePath env now hgps)
      · exact .inl (toolBranch_gps imagePath env now hgps)
    · split at h
      · -- HEIC branch
        injection h with h
        subst h
        exact .inl (toolBranch_gps imagePath env now hgps)
      · -- EXIF branch
        rcases hex : env.exifData with _ | ex <;> simp only [hex] at h
        · injection h with h
          subst h
          rw [(baseInfo_noGPS imagePath env now).1] at hgps
          cases hgps
        · rcases hll : ex.latLong with _ | ll <;> simp only [hll] at h <;>
            split at h <;> injection h with h <;> subst h
          · rw [show ({ baseInfo imagePath env now with Date := _ } : ImageInfo).HasGPS =
              (baseInfo imagePath env now).HasGPS from rfl,
              (baseInfo_noGPS imagePath env now).1] at hgps
            cases hgps
          · rw [(baseInfo_noGPS imagePath env now).1] at hgps
            cases hgps
          · exact .inr ⟨ex, ll, rfl, hll, rfl, rfl⟩
          · exact .inr ⟨ex, ll, rfl, hll, rfl, rfl⟩
  · simp [ho] at h

/-- A per-file environment where the tool reports a non-zero GPS fix for
a video file. -/
def envToolGPS : FileEnv :=
  { openOk := true, statOk := true, modTime := 5
    exifData := none, toolOk := true
    toolGPSLines := [GPSLine.latVal (some 10), GPSLine.lngVal (some 20)]
    videoDate := none }

/-- The record `extractImageInfo` produces for `clip.mp4` under
`envToolGPS`. -/
def infoToolGPS : ImageInfo :=
  { OriginalPath := "clip.mp4", Date := 5, Location := formatLocation 10 20
    HasGPS := true, Latitude := 10, Longitude := 20 }

/-- Witness for amended C6 on the video/tool path. -/
theorem hasGPS_source_amended_witness :
    (extractImageInfo "clip.mp4" envToolGPS 7 = some infoToolGPS ∧
      infoToolGPS.HasGPS = true) ∧
    (((extractHEICGPSWithExifTool envToolGPS.toolOk envToolGPS.toolGPSLines).2.2 = true ∧
        infoToolGPS.Latitude ≠ 0 ∧ infoToolGPS.Longitude ≠ 0) ∨
      (∃ ex ll, envToolGPS.exifData = some ex ∧ ex.latLong = some ll ∧
        infoToolGPS.Latitude = ll.1 ∧ infoToolGPS.Longitude = ll.2)) :=
  ⟨⟨rfl, rfl⟩, hasGPS_source_amended "clip.mp4" envToolGPS 7 infoToolGPS rfl rfl⟩

/-! ## File organization (`organizeByLocationClusters`)

Filesystem paths are modelled as their separator-split component lists
(`filepath.Join` appends a component, `filepath.Base` takes the last);
the output tree is the set of file paths present.  Directory creation and
byte copying are the success-path primitives — their failure branches
(`DirectoryCreateError`, `CopyError`) are I/O error paths outside the
model, as is the skip of a member whose re-extraction fails (which only
removes it from the copy set). -/

/-- A filesystem path as its separator-split components. -/
abbrev FsPath := List String

/-- The files present under the output root. -/
structure FS where
  files : List FsPath
  deriving Repr, DecidableEq

/-- `filepath.Base` on a component path. -/
def fsBase (p : FsPath) : String := p.getLastD ""

/-- `dir` is an ancestor (component prefix) of `p`. -/
def underDir : FsPath → FsPath → Bool
  | [], _ => true
  | _ :: _, [] => false
  | d :: ds, c :: cs => d == c && underDir ds cs

/-- `getExistingFiles` from the source: every file in the subtree rooted
at `baseFolder` (the empty list when that folder does not exist yet). -/
def getExistingFiles (fs : FS) (baseFolder : FsPath) : List FsPath :=
  fs.files.filter (fun p => underDir baseFolder p)

/-- Civil date of a day number (the inverse of `daysFromCivil`). -/
def civilFromDays (z0 : Int) : Int × Nat × Nat :=
  let z := z0 + 719468
  let era := Int.fdiv z 146097
  let doe := z - era * 146097
  let yoe := (doe - doe / 1460 + doe / 36524 - doe / 146096) / 365
  let y := yoe + era * 400
  let doy := doe - (365 * yoe + yoe / 4 - yoe / 100)
  let mp := (5 * doy + 2) / 153
  let d := doy - (153 * mp + 2) / 5 + 1
  let m := if mp < 10 then mp + 3 else mp - 9
  (if m ≤ 2 then y + 1 else y, m.toNat, d.toNat)

/-- Two-digit zero-padded rendering. -/
def pad2 (n : Nat) : String := if n < 10 then "0" ++ toString n else toString n

/-- Go `Format("01-02-2006")` of an instant: the month-day-year subfolder
name. -/
def goFormatMDY (t : Int) : String :=
  let c := civilFromDays (Int.fdiv t 86400)
  pad2 c.2.1 ++ "-" ++ pad2 c.2.2 ++ "-" ++ toString c.1

/-- `createFolderStructure` from the source, success path:
`baseFolder/location/MM-DD-YYYY` (the fallback to `baseFolder` on a
failed `MkdirAll` is an I/O error path outside the model). -/
def createFolderStructure (baseFolder : FsPath) (location : String) (date : Int) : FsPath :=
  baseFolder ++ [location, goFormatMDY date]

/-- The collision loop of `copyFile`: the first `name_k.ext` (`k`
counting up from `counter`) absent from `destDir`.  The Go loop
terminates because the tree is finite; here the fuel
`fs.files.length + 1` bounds the search, which is ample since at most
`fs.files.length` candidates can be taken. -/
def freeSuffixName (fs : FS) (destDir : FsPath) (name ext : String) : Nat → Nat → String
  | counter, 0 => name ++ "_" ++ toString counter ++ ext
  | counter, fuel + 1 =>
    let newName := name ++ "_" ++ toString counter ++ ext
    if destDir ++ [newName] ∈ fs.files then
      freeSuffixName fs destDir name ext (counter + 1) fuel
    else newName

/-- `copyFile` from the source, success path: the destination is
`destDir/<base name>`, or a numerically suffixed variant when that exact
path already exists; the chosen file is created (byte copying is the
primitive outside the model). -/
def copyFile (fs : FS) (src : FsPath) (destDir : FsPath) : FS :=
  let filename := fsBase src
  let destPath := destDir ++ [filename]
  let chosen :=
    if destPath ∈ fs.files then
      let ext := goExt filename
      let name := String.mk (trimExt filename)
      destDir ++ [freeSuffixName fs destDir name ext 1 (fs.files.length + 1)]
    else destPath
  { files := fs.files ++ [chosen] }

/-- The fields of `ImageInfo` the organizer reads, with the path in
component form. -/
structure OrgImageInfo where
  OriginalPath : FsPath
  Date : Int
  Location : String
  deriving Repr, DecidableEq

/-- `LocationCluster` from the source (member paths in component form;
the organizer reads only `Name` and `Images`). -/
structure LocationCluster where
  Name : String
  CenterLat : ℚ
  CenterLng : ℚ
  Images : List FsPath
  deriving Repr, DecidableEq

/-- The comparator the source passes to `sort.Slice`:
`clusterImageInfos[i].Date.Before(clusterImageInfos[j].Date)` — capture
time only. -/
def lessDate (a b : OrgImageInfo) : Bool := a.Date < b.Date

/-- The contract of Go's `sort.Slice` (an unstable sort): a permutation
of the input in which no later element compares strictly below an
earlier one. -/
def IsSortSliceOutput (l out : List OrgImageInfo) : Prop :=
  List.Perm out l ∧ out.Pairwise (fun a b => ¬ lessDate b a = true)

/-- The non-strict ordering induced by the source's comparator. -/
def dateLe (a b : OrgImageInfo) : Prop := a.Date ≤ b.Date

instance : DecidableRel dateLe := fun a b => Int.decLe a.Date b.Date

instance : IsTotal OrgImageInfo dateLe := ⟨fun a b => Int.le_total a.Date b.Date⟩

instance : IsTrans OrgImageInfo dateLe := ⟨fun _ _ _ => le_trans⟩

/-- A realization of the source's `sort.Slice` call.  Go's sort is
unstable, so any comparator-sorted permutation is a legal outcome; no
theorem below depends on the order among `Date` ties. -/
def sortSliceByDate (l : List OrgImageInfo) : List OrgImageInfo :=
  List.insertionSort dateLe l

/-- The member filter of the cluster loop: keep (and re-extract) only
files whose base name is absent from the cluster's destination subtree,
stamped with the cluster name as their location. -/
def clusterPending (extract : FsPath → OrgImageInfo) (outputFolder : FsPath) (fs : FS)
    (cluster : LocationCluster) : List OrgImageInfo :=
  cluster.Images.filterMap (fun imagePath =>
    if fsBase imagePath ∈ (getExistingFiles fs (outputFolder ++ [cluster.Name])).map fsBase
    then none
    else some { extract imagePath with Location := cluster.Name })

/-- One copy of the per-cluster copy loop (success path: the copied
count always increments). -/
def copyStep (outputFolder : FsPath) (acc : FS × Nat) (info : OrgImageInfo) : FS × Nat :=
  (copyFile acc.1 info.OriginalPath (createFolderStructure outputFolder info.Location info.Date),
    acc.2 + 1)

/-- One iteration of the cluster loop of `organizeByLocationClusters`:
pre-scan, skip, sort by date, copy in order; returns the new tree and the
number of files copied. -/
def organizeCluster (extract : FsPath → OrgImageInfo) (outputFolder : FsPath)
    (fs : FS) (cluster : LocationCluster) : FS × Nat :=
  (sortSliceByDate (clusterPending extract outputFolder fs cluster)).foldl
    (copyStep outputFolder) (fs, 0)

/-- `organizeByLocationClusters` from the source: the cluster loop over
the finalized cluster list, returning the final tree and the total
copied count. -/
def organizeByLocationClusters (extract : FsPath → OrgImageInfo) (outputFolder : FsPath)
    (clusters : List LocationCluster) (fs : FS) : FS × Nat :=
  clusters.foldl (fun acc cluster =>
    let r := organizeCluster extract outputFolder acc.1 cluster
    (r.1, acc.2 + r.2)) (fs, 0)

/-! ### C7: the copy order within a cluster -/

/-- Byte-lexicographic strict order on character lists (Go's `<` on
strings). -/
def charListLt : List Char → List Char → Bool
  | [], [] => false
  | [], _ :: _ => true
  | _ :: _, [] => false
  | a :: as, b :: bs => if a = b then charListLt as bs else a.toNat < b.toNat

/-- Go's `<` on strings. -/
def strLt (a b : String) : Bool := charListLt a.data b.data

/-- Lexicographic strict order on component paths (component-wise Go
string order — the order of the full joined path string when no
component embeds a separator). -/
def pathLt : FsPath → FsPath → Bool
  | [], [] => false
  | [], _ :: _ => true
  | _ :: _, [] => false
  | a :: as, b :: bs => if a = b then pathLt as bs else strLt a b

/-- Organizer record `"b.jpg"`, capture time 5. -/
def tieB : OrgImageInfo := { OriginalPath := ["b.jpg"], Date := 5, Location := "L" }

/-- Organizer record `"a.jpg"`, same capture time 5. -/
def tieA : OrgImageInfo := { OriginalPath := ["a.jpg"], Date := 5, Location := "L" }

/--
**C7 (refuted).** The comparator orders by `Date` only — there is no
path tie-break in the source, and `sort.Slice` is unstable.  The list
`[tieB, tieA]` (equal capture times, paths out of lexicographic order)
is a legal output of the code's sort for its own multiset — and is what
the modelled sort itself produces — yet is not ordered by
(capture time, path).
-/
theorem sort_tie_break_counterexample :
    IsSortSliceOutput [tieB, tieA] [tieB, tieA] ∧
    sortSliceByDate [tieB, tieA] = [tieB, tieA] ∧
    ¬ List.Pairwise (fun a b : OrgImageInfo =>
        a.Date < b.Date ∨
          (a.Date = b.Date ∧ pathLt b.OriginalPath a.OriginalPath = false))
      [tieB, tieA] := by
  refine ⟨⟨List.Perm.refl _, by decide⟩, by decide, by decide⟩

/--
**C7 (amended).** Within a cluster, the remaining members are copied in
ascending (non-decreasing) capture-time order; the comparator inspects
only the capture time, so the relative order of members with equal
capture times is unspecified (not deterministic per input multiset).
-/
theorem copy_order_ascending_by_date (l out : List OrgImageInfo)
    (h : IsSortSliceOutput l out) :
    out.Pairwise (fun a b : OrgImageInfo => a.Date ≤ b.Date) :=
  h.2.imp (fun hab => by simpa [lessDate, not_lt] using hab)

/-- Witness for amended C7 at a concrete tied list. -/
theorem copy_order_ascending_by_date_witness :
    IsSortSliceOutput [tieB, tieA] [tieB, tieA] ∧
    List.Pairwise (fun a b : OrgImageInfo => a.Date ≤ b.Date) [tieB, tieA] :=
  ⟨⟨List.Perm.refl _, by decide⟩,
    copy_order_ascending_by_date [tieB, tieA] [tieB, tieA]
      ⟨List.Perm.refl _, by decide⟩⟩

/-! ### C8: idempotence of the organizer -/

theorem underDir_append (d xs : FsPath) : underDir d (d ++ xs) = true := by
  induction d with
  | nil => rfl
  | cons a ds ih => simp [underDir, ih]

theorem copyFile_subset (fs : FS) (src destDir : FsPath) (p : FsPath)
    (h : p ∈ fs.files) : p ∈ (copyFile fs src destDir).files := by
  simp only [copyFile]
  exact List.mem_append_left _ h

/-- After `copyFile`, the source's base name is present somewhere under
`dir` whenever the destination directory lies under `dir`: either the
fresh file carries it, or the collision that forced a suffix already
did. -/
theorem copyFile_covers (fs : FS) (src : FsPath) (dir sub : FsPath) :
    ∃ q ∈ (copyFile fs src (dir ++ sub)).files,
      underDir dir q = true ∧ fsBase q = fsBase src := by
  refine ⟨(dir ++ sub) ++ [fsBase src], ?_, ?_, ?_⟩
  · by_cases hex : (dir ++ sub) ++ [fsBase src] ∈ fs.files
    · exact copyFile_subset fs src (dir ++ sub) _ hex
    · simp only [copyFile, if_neg hex]
      exact List.mem_append_right _ (List.mem_singleton.mpr rfl)
  · rw [List.append_assoc]
    exact underDir_append dir _
  · exact List.getLastD_concat _ _ _

theorem foldl_copyStep_subset (root : FsPath) (l : List OrgImageInfo) (acc : FS × Nat)
    (p : FsPath) (h : p ∈ acc.1.files) :
    p ∈ (l.foldl (copyStep root) acc).1.files := by
  induction l generalizing acc with
  | nil => exact h
  | cons hd tl ih =>
    rw [List.foldl_cons]
    exact ih _ (copyFile_subset _ _ _ p h)

theorem foldl_copyStep_covers (root : FsPath) (l : List OrgImageInfo) (acc : FS × Nat)
    (info : OrgImageInfo) (hm : info ∈ l) :
    ∃ q ∈ (l.foldl (copyStep root) acc).1.files,
      underDir (root ++ [info.Location]) q = true ∧
        fsBase q = fsBase info.OriginalPath := by
  induction l generalizing acc with
  | nil => cases hm
  | cons hd tl ih =>
    rw [List.foldl_cons]
    rcases List.mem_cons.mp hm with hm | hm
    · subst hm
      have hdest : createFolderStructure root info.Location info.Date =
          (root ++ [info.Location]) ++ [goFormatMDY info.Date] := by
        simp [createFolderStructure]
      obtain ⟨q, hq, hu, hb⟩ :=
        copyFile_covers acc.1 info.OriginalPath (root ++ [info.Location])
          [goFormatMDY info.Date]
      refine ⟨q, ?_, hu, hb⟩
      apply foldl_copyStep_subset
      simpa only [copyStep, hdest] using hq
    · exact ih _ hm

theorem organizeCluster_subset (extract : FsPath → OrgImageInfo) (root : FsPath)
    (fs : FS) (c : LocationCluster) (p : FsPath) (h : p ∈ fs.files) :
    p ∈ (organizeCluster extract root fs c).1.files :=
  foldl_copyStep_subset root _ (fs, 0) p h

/-- After the cluster's turn, every member's base name is present in the
cluster's destination subtree: skipped members were found there in the
pre-scan, and copied members put (or met) it there. -/
theorem organizeCluster_covers (extract : FsPath → OrgImageInfo) (root : FsPath)
    (fs : FS) (c : LocationCluster) (hOP : ∀ p, (extract p).OriginalPath = p)
    (m : FsPath) (hm : m ∈ c.Images) :
    ∃ q ∈ (organizeCluster extract root fs c).1.files,
      underDir (root ++ [c.Name]) q = true ∧ fsBase q = fsBase m := by
  by_cases hskip : fsBase m ∈ (getExistingFiles fs (root ++ [c.Name])).map fsBase
  · obtain ⟨q, hq, hbq⟩ := List.mem_map.mp hskip
    have hq' := List.mem_filter.mp hq
    exact ⟨q, organizeCluster_subset extract root fs c q hq'.1, hq'.2, hbq⟩
  · have hpend : ({ extract m with Location := c.Name } : OrgImageInfo) ∈
        clusterPending extract root fs c := by
      apply List.mem_filterMap.mpr
      exact ⟨m, hm, by rw [if_neg hskip]⟩
    have hsorted : ({ extract m with Location := c.Name } : OrgImageInfo) ∈
        sortSliceByDate (clusterPending extract root fs c) :=
      (List.perm_insertionSort dateLe _).mem_iff.mpr hpend
    obtain ⟨q, hq, hu, hb⟩ :=
      foldl_copyStep_covers root _ (fs, 0) _ hsorted
    refine ⟨q, hq, hu, ?_⟩
    rw [hb]
    show fsBase (extract m).OriginalPath = fsBase m
    rw [hOP m]

theorem organize_foldl_shift (extract : FsPath → OrgImageInfo) (root : FsPath)
    (cs : List LocationCluster) (fs : FS) (n : Nat) :
    cs.foldl (fun acc cluster =>
      let r := organizeCluster extract root acc.1 cluster
      (r.1, acc.2 + r.2)) (fs, n) =
    ((organizeByLocationClusters extract root cs fs).1,
      n + (organizeByLocationClusters extract root cs fs).2) := by
  induction cs generalizing fs n with
  | nil => simp [organizeByLocationClusters]
  | cons d ds ih =>
    simp only [organizeByLocationClusters, List.foldl_cons]
    rw [ih, ih]
    refine Prod.ext rfl ?_
    simp only []
    omega

theorem organize_cons (extract : FsPath → OrgImageInfo) (root : FsPath)
    (d : LocationCluster) (ds : List LocationCluster) (fs : FS) :
    organizeByLocationClusters extract root (d :: ds) fs =
      ((organizeByLocationClusters extract root ds (organizeCluster extract root fs d).1).1,
        (organizeCluster extract root fs d).2 +
          (organizeByLocationClusters extract root ds
            (organizeCluster extract root fs d).1).2) := by
  unfold organizeByLocationClusters
  rw [List.foldl_cons]
  have := organize_foldl_shift extract root ds (organizeCluster extract root fs d).1
    (0 + (organizeCluster extract root fs d).2)
  simp only [organizeByLocationClusters] at this
  simpa using this

theorem organize_subset (extract : FsPath → OrgImageInfo) (root : FsPath)
    (cs : List LocationCluster) : ∀ (fs : FS) (p : FsPath), p ∈ fs.files →
    p ∈ (organizeByLocationClusters extract root cs fs).1.files := by
  induction cs with
  | nil => intro fs p h; exact h
  | cons d ds ih =>
    intro fs p h
    rw [organize_cons]
    exact ih _ p (organizeCluster_subset extract root fs d p h)

/-- After a full run, every member of every cluster has its base name in
that cluster's destination subtree. -/
theorem organize_covers (extract : FsPath → OrgImageInfo) (root : FsPath)
    (hOP : ∀ p, (extract p).OriginalPath = p) (cs : List LocationCluster) :
    ∀ (fs : FS) (c : LocationCluster), c ∈ cs → ∀ m ∈ c.Images,
      ∃ q ∈ (organizeByLocationClusters extract root cs fs).1.files,
        underDir (root ++ [c.Name]) q = true ∧ fsBase q = fsBase m := by
  induction cs with
  | nil => intro fs c hc; cases hc
  | cons d ds ih =>
    intro fs c hc m hm
    rw [organize_cons]
    rcases List.mem_cons.mp hc with hc | hc
    · subst hc
      obtain ⟨q, hq, hu, hb⟩ := organizeCluster_covers extract root fs c hOP m hm
      exact ⟨q, organize_subset extract root ds _ q hq, hu, hb⟩
    · exact ih (organizeCluster extract root fs d).1 c hc m hm

/-- A cluster whose members' base names all appear in its destination
subtree copies nothing and leaves the tree unchanged. -/
theorem organizeCluster_all_skip (extract : FsPath → OrgImageInfo) (root : FsPath)
    (fs : FS) (c : LocationCluster)
    (hall : ∀ m ∈ c.Images, ∃ q ∈ fs.files,
      underDir (root ++ [c.Name]) q = true ∧ fsBase q = fsBase m) :
    organizeCluster extract root fs c = (fs, 0) := by
  have hpend : clusterPending extract root fs c = [] := by
    unfold clusterPending
    rw [List.filterMap_eq_nil_iff]
    intro m hm
    obtain ⟨q, hq, hu, hb⟩ := hall m hm
    have hcond : fsBase m ∈ (getExistingFiles fs (root ++ [c.Name])).map fsBase :=
      List.mem_map.mpr ⟨q, List.mem_filter.mpr ⟨hq, hu⟩, hb⟩
    simp [hcond]
  unfold organizeCluster
  rw [hpend]
  rfl

theorem organize_all_skip (extract : FsPath → OrgImageInfo) (root : FsPath)
    (cs : List LocationCluster) (fs : FS)
    (hall : ∀ c ∈ cs, ∀ m ∈ c.Images, ∃ q ∈ fs.files,
      underDir (root ++ [c.Name]) q = true ∧ fsBase q = fsBase m) :
    organizeByLocationClusters extract root cs fs = (fs, 0) := by
  induction cs with
  | nil => rfl
  | cons d ds ih =>
    rw [organize_cons,
      organizeCluster_all_skip extract root fs d (hall d (List.mem_cons_self d ds))]
    have := ih (fun c hc => hall c (List.mem_cons_of_mem d hc))
    simp [this]

/--
**C8.** Idempotence of the organizer: running it once and re-running it
on the same cluster list and output root produces zero copies the second
time — every source file's base name already exists in its cluster's
destination subtree and is skipped.  `extract` is the (deterministic)
re-extraction of a member's metadata; it returns the queried path, as
`extractImageInfo` does.
-/
theorem organize_idempotent (extract : FsPath → OrgImageInfo) (outputFolder : FsPath)
    (clusters : List LocationCluster) (fs0 : FS)
    (hOP : ∀ p, (extract p).OriginalPath = p) :
    (organizeByLocationClusters extract outputFolder clusters
      (organizeByLocationClusters extract outputFolder clusters fs0).1).2 = 0 := by
  rw [organize_all_skip extract outputFolder clusters _
    (fun c hc m hm => organize_covers extract outputFolder hOP clusters fs0 c hc m hm)]

/-- A concrete extraction map for the organizer witness. -/
def extractW (p : FsPath) : OrgImageInfo :=
  { OriginalPath := p, Date := 0, Location := "" }

/-- A concrete one-cluster list for the organizer witness. -/
def clustersW : List LocationCluster :=
  [{ Name := "c", CenterLat := 0, CenterLng := 0, Images := [["src", "x.jpg"]] }]

/-- Witness for C8 at a concrete run. -/
theorem organize_idempotent_witness :
    (∀ p, (extractW p).OriginalPath = p) ∧
    (organizeByLocationClusters extractW ["out"] clustersW
      (organizeByLocationClusters extractW ["out"] clustersW ⟨[]⟩).1).2 = 0 :=
  ⟨fun _ => rfl,
    organize_idempotent extractW ["out"] clustersW ⟨[]⟩ (fun _ => rfl)⟩

end ImageOrganizer
